import Mathlib

set_option linter.unusedVariables false

/-
Verification development for the emmental configuration-and-logging
bootstrap module (src/emmental/meta.py).

Modelling conventions used throughout this file:

A YAML document is embedded as the inductive type Value: null, integer and
string scalars, and mappings represented as association lists of
string keys paired with values (matching insertion order of a Python dict).

A filesystem directory is embedded as the list of its path components,
so the root directory "/" is the empty list and the parent directory
operation os.path.split(d)[0] is List.dropLast.  Only absolute paths are
modelled, so the Python truthiness test on the current directory string in
the search loop of Meta.update_config is always true and is dropped.

The filesystem itself is a structure FS giving, for a directory and a file
name, whether the file exists (os.path.exists) and the outcome of opening
and YAML-parsing it (Except.error for a parse failure).

Python truthiness tests on the process-wide state fields (if not
Meta.log_path, if not Meta.config) are embedded by explicit truthiness
functions on optional values.

Side effects that have no bearing on the claims (installing logging
handlers via logging.basicConfig, creating directories on disk with
os.makedirs) are abstracted to a recorded boolean flag; emitted log
messages are recorded explicitly as lists of strings.
-/

/-- A YAML value: null, an integer, a string, or a mapping given as an
association list from string keys to values. -/
inductive Value where
  | null : Value
  | int : Int → Value
  | str : String → Value
  | map : List (String × Value) → Value

/-- First binding of key k in an association list, as Python dict lookup. -/
def lookupList (k : String) : List (String × Value) → Option Value
  | [] => none
  | (k2, v) :: rest => if k2 = k then some v else lookupList k rest

/-- Whether a value is a mapping (Python isinstance(x, dict)). -/
def isMapV : Value → Bool
  | Value.map _ => true
  | _ => false

/-- Lookup of a key inside a value, none when the value is not a mapping. -/
def mlookup (v : Value) (k : String) : Option Value :=
  match v with
  | Value.map m => lookupList k m
  | _ => none

/-- Whether a value equals the empty Python dict, as in the test
config != \x7b\x7d of Meta.update_config. -/
def isEmptyMap : Value → Bool
  | Value.map [] => true
  | _ => false

mutual
/-- Modelled from the spec: the function merge imported from
emmental.utils.utils, whose source is not part of this fragment.  The spec
describes it as a recursive merge of the override (second argument) onto
the base (first argument): for each key, if both sides hold a mapping the
merge recurses, otherwise the override value wins.  Keys only present in
the base keep their base value; keys only present in the override are
appended in override order. -/
def merge : Value → Value → Value
  | Value.map x, Value.map y =>
      Value.map (mergeInto x y ++ List.filter (fun q => (lookupList q.1 x).isNone) y)
  | _, y => y
termination_by a b => sizeOf a + sizeOf b
decreasing_by
  all_goals simp_wf
  all_goals omega

/-- Merge the override bindings of y into each binding of the base list x,
keeping the base key order. -/
def mergeInto : List (String × Value) → List (String × Value) → List (String × Value)
  | [], _ => []
  | (k, v) :: rest, y => (k, mergeLook v (lookupList k y)) :: mergeInto rest y
termination_by x y => sizeOf x + sizeOf y
decreasing_by
  all_goals simp_wf
  all_goals try
    have hb : ∀ yy : List (String × Value), sizeOf (lookupList k yy) ≤ sizeOf yy := by
      intro yy
      induction yy with
      | nil => simp [lookupList]
      | cons p tl ih =>
        obtain ⟨k2, w⟩ := p
        simp only [lookupList]
        split
        · simp
          omega
        · simp at ih ⊢
          omega
  all_goals try have := hb y
  all_goals omega

/-- Merge a base value with the optional override found for its key. -/
def mergeLook : Value → Option Value → Value
  | v, none => v
  | v, some w => merge v w
termination_by v o => sizeOf v + sizeOf o
decreasing_by
  all_goals simp_wf
end

/-- Max num of parent directories to look for config (meta.py line 11). -/
def MAX_CONFIG_SEARCH_DEPTH : Nat := 25

/-- The filesystem as seen by Meta.update_config: whether a file with the
given name exists in a directory (os.path.exists on the joined path), and
the outcome of opening that file and parsing it with yaml.safe_load (an
Except.error models a raised parse error). -/
structure FS where
  hasFile : List String → String → Bool
  readFile : List String → String → Except String Value

/-- Render a directory (list of components of an absolute path) joined
with a file name, for use inside log messages. -/
def renderPath (d : List String) (fn : String) : String :=
  "/" ++ String.intercalate "/" (d ++ [fn])

/-- The chain of directories from a starting directory up to the root,
stepping with os.path.split(d)[0] (List.dropLast), the root included. -/
def dirChain (d : List String) : List (List String) :=
  if d = [] then [[]] else d :: dirChain d.dropLast
termination_by d.length
decreasing_by
  simp_wf
  rename_i hne
  have hl : d.length ≠ 0 := fun h0 => hne (List.eq_nil_of_length_eq_zero h0)
  simp [List.length_dropLast]
  omega

/-- The directory at which the upward search loop of Meta.update_config
stops because the named file exists there, none when the loop ends without
finding the file.  The arguments tries and current_dir mirror the loop
variables of the source. -/
def findConfigDir (fs : FS) (filename : String) (tries : Nat) (current_dir : List String) :
    Option (List String) :=
  if tries < MAX_CONFIG_SEARCH_DEPTH then
    if fs.hasFile current_dir filename then some current_dir
    else if current_dir.dropLast = current_dir then none
    else findConfigDir fs filename (tries + 1) current_dir.dropLast
  else none
termination_by MAX_CONFIG_SEARCH_DEPTH - tries
decreasing_by
  simp_wf
  omega

/-- The directories examined by the upward search loop of
Meta.update_config, in the order the loop examines them. -/
def searchVisited (fs : FS) (filename : String) (tries : Nat) (current_dir : List String) :
    List (List String) :=
  if tries < MAX_CONFIG_SEARCH_DEPTH then
    if fs.hasFile current_dir filename then [current_dir]
    else if current_dir.dropLast = current_dir then [current_dir]
    else current_dir :: searchVisited fs filename (tries + 1) current_dir.dropLast
  else []
termination_by MAX_CONFIG_SEARCH_DEPTH - tries
decreasing_by
  simp_wf
  omega

/-- Outcome of a run of Meta.update_config: the configuration value after
the call, the error raised during the call if any (a YAML parse error from
a discovered file), and the log messages emitted by the call in order. -/
structure SearchResult where
  config : Value
  err : Option String
  logs : List String

/-- Log message emitted when the search loop reaches the filesystem root
without finding the named file. -/
def unableMsg : String := "Unable to find config file. Using defaults."

/-- Log message emitted after merging a discovered config file. -/
def updatingFileMsg (d : List String) (fn : String) : String :=
  "Updating Emmental config from " ++ renderPath d fn ++ "."

/-- Log message emitted after merging the user provided override dict. -/
def updatingDictMsg : String := "Updating Emmental config from user provided config."

/-- The while loop of Meta.update_config (meta.py lines 146 to 161): walk
upward from current_dir while tries is below MAX_CONFIG_SEARCH_DEPTH; at a
directory holding the named file, parse it, merge it onto the current
configuration, log, and stop; at the root (its parent is itself), log that
defaults are used and stop; otherwise move to the parent and count one
try.  A parse failure raises (the error is recorded and the configuration
keeps the value it had, as the assignment to Meta.config never runs). -/
def configSearchLoop (fs : FS) (filename : String) (tries : Nat) (current_dir : List String)
    (cfg : Value) : SearchResult :=
  if tries < MAX_CONFIG_SEARCH_DEPTH then
    if fs.hasFile current_dir filename then
      match fs.readFile current_dir filename with
      | Except.ok y => ⟨merge cfg y, none, [updatingFileMsg current_dir filename]⟩
      | Except.error e => ⟨cfg, some e, []⟩
    else if current_dir.dropLast = current_dir then
      ⟨cfg, none, [unableMsg]⟩
    else
      configSearchLoop fs filename (tries + 1) current_dir.dropLast cfg
  else ⟨cfg, none, []⟩
termination_by MAX_CONFIG_SEARCH_DEPTH - tries
decreasing_by
  simp_wf
  omega

/-- The process-wide state holder (class Meta of meta.py): the active log
directory path and the active configuration document, each optional. -/
structure Meta where
  log_path : Option String
  config : Option Value

/-- Meta.update_config (meta.py lines 125 to 161), acting on the current
configuration value cur (the value held in Meta.config, which the source
assumes to be set).  First, when the override dict is not empty, it is
deep-merged onto the configuration and a message is logged; second, when a
path is given, the upward file search runs on the configuration that
resulted from the first step. -/
def Meta.update_config (fs : FS) (config : Value) (path : Option (List String))
    (filename : String) (cur : Value) : SearchResult :=
  let afterDict : Value := if isEmptyMap config = false then merge cur config else cur
  let dictLogs : List String := if isEmptyMap config = false then [updatingDictMsg] else []
  match path with
  | none => ⟨afterDict, none, dictLogs⟩
  | some p =>
      let r := configSearchLoop fs filename 0 p afterDict
      ⟨r.config, r.err, dictLogs ++ r.logs⟩

/-- Ambient inputs that the source reads from the environment: the current
date and time strings formatted by datetime.now().strftime, and the
directory returned by tempfile.gettempdir(). -/
structure Sys where
  date : String
  time : String
  tempDir : String

/-- Default logging format string of init_logging and init. -/
def defaultFormat : String :=
  "[%(asctime)s][%(levelname)s] %(name)s:%(lineno)s - %(message)s"

/-- Numeric value of logging.INFO, the default severity level. -/
def INFO : Nat := 20

/-- Python truthiness of the optional string Meta.log_path, as tested by
the statement if not Meta.log_path. -/
def truthyStr : Option String → Bool
  | none => false
  | some x => x != ""

/-- Python truthiness of a YAML value. -/
def truthyValue : Value → Bool
  | Value.null => false
  | Value.int i => i != 0
  | Value.str x => x != ""
  | Value.map m => !m.isEmpty

/-- Python truthiness of the optional value Meta.config, as tested by the
statement if not Meta.config. -/
def truthyOptValue : Option Value → Bool
  | none => false
  | some v => truthyValue v

/-- Join of two path fragments, as os.path.join on a relative second
fragment. -/
def pathJoin (a b : String) : String := a ++ "/" ++ b

/-- Observable effects of a call to init_logging: whether the global
logger was configured (logging.basicConfig ran, handlers installed, and
the log directory was created on disk when missing), and the log messages
emitted.  Handler objects and the created directory itself carry no
information beyond the computed path, so they are not modelled further. -/
structure LogEffect where
  configured : Bool
  logs : List String

/-- Log message of the branch of init_logging taken when logging was
already initialized. -/
def alreadyInitMsg (p : String) : String :=
  "Logging was already initialized to use " ++ p ++ ".  " ++
    "To configure logging manually, call emmental.init_logging before " ++
    "initialiting Meta."

/-- The function init_logging (meta.py lines 61 to 102): when the
process-wide log path is unset (falsy), compute the timestamped path
log_dir/date/time, create it, configure the global logger, log the
location, and record the path in Meta.log_path; otherwise only log that
logging was already initialized. -/
def init_logging (sys : Sys) (log_dir log_name fmt : String) (level : Nat) (s : Meta) :
    Meta × LogEffect :=
  if truthyStr s.log_path = false then
    let log_path := pathJoin (pathJoin log_dir sys.date) sys.time
    ({ s with log_path := some log_path },
      ⟨true, ["Setting logging directory to: " ++ log_path]⟩)
  else
    (s, ⟨false, [alreadyInitMsg (s.log_path.getD "None")]⟩)

/-- Contents of the filesystem as read by init_config: the parsed tree of
the bundled file emmental-default-config.yaml that sits next to the
module.  The claims presuppose that this file is present and parses, so it
is carried as a plain value. -/
structure ConfigEnv where
  defaultConfig : Value

/-- The function init_config (meta.py lines 47 to 58): parse the bundled
default configuration file and store the parsed tree in Meta.config,
overwriting whatever was there.  The emitted info message carries no state
and is not recorded. -/
def init_config (env : ConfigEnv) (s : Meta) : Meta :=
  { s with config := some env.defaultConfig }

/-- The classmethod Meta.init (meta.py lines 114 to 123): run init_logging
with all default arguments when the log path is unset, then run
init_config when the configuration is unset. -/
def Meta.init (sys : Sys) (env : ConfigEnv) (s : Meta) : Meta :=
  let s1 := if truthyStr s.log_path = false
    then (init_logging sys sys.tempDir "emmental.log" defaultFormat INFO s).1
    else s
  if truthyOptValue s1.config = false then init_config env s1 else s1

/-- State of the shared random number generator. -/
structure RNG where
  seed : Value

/-- Modelled from the spec: the function set_random_seed imported from
emmental.utils.utils, whose source is not part of this fragment.  The spec
says the bootstrap seeds the shared random number generator
deterministically from the configured seed value, so the embedding
installs the given value as the generator state. -/
def set_random_seed (v : Value) : RNG := ⟨v⟩

/-- Integer content of a seed value, zero for non-integers. -/
def seedAsInt : Value → Int
  | Value.int i => i
  | _ => 0

/-- Modelled from the spec: the subsequent pseudo-random sequence drawn
from the shared generator, a deterministic function of the generator
state (the spec promises identical sequences for identical seeds; the
concrete recurrence is a stand-in for the generator, which is not part of
this fragment). -/
def randomSequence (g : RNG) : Nat → Int
  | 0 => seedAsInt g.seed % 2147483648
  | n + 1 => (1103515245 * randomSequence g n + 12345) % 2147483648

/-- Python subscript v[k]: the value under a key of a mapping, a KeyError
for a missing key, a TypeError when the subscripted value is not a
mapping. -/
def getItem (v : Value) (k : String) : Except String Value :=
  match v with
  | Value.map m =>
      match lookupList k m with
      | some w => Except.ok w
      | none => Except.error ("KeyError: " ++ k)
  | _ => Except.error ("TypeError: value under " ++ k ++ " is not subscriptable")

/-- The expression Meta.config[meta_config][seed] of init (meta.py line
44). -/
def seedLookup (cfg : Value) : Except String Value :=
  match getItem cfg "meta_config" with
  | Except.error e => Except.error e
  | Except.ok m => getItem m "seed"

/-- The top-level bootstrap init (meta.py lines 16 to 44): run
init_logging, then init_config, then Meta.update_config when a config
directory was supplied, and finally seed the shared generator from
Meta.config[meta_config][seed].  The returned state holds the fields of
class Meta after the call (Python mutations persist even when a later
statement raises, so the state is returned together with the outcome);
the outcome is the installed generator state, or the raised error. -/
def init (sys : Sys) (env : ConfigEnv) (fs : FS) (log_dir log_name fmt : String) (level : Nat)
    (config : Value) (config_dir : Option (List String)) (config_name : String) (s : Meta) :
    Meta × Except String RNG :=
  let s1 := (init_logging sys log_dir log_name fmt level s).1
  let s2 := init_config env s1
  let upd : Meta × Option String :=
    match config_dir with
    | none => (s2, none)
    | some p =>
        let r := Meta.update_config fs config p config_name (s2.config.getD Value.null)
        ({ s2 with config := some r.config }, r.err)
  match upd.2 with
  | some e => (upd.1, Except.error e)
  | none =>
      match seedLookup (upd.1.config.getD Value.null) with
      | Except.error e => (upd.1, Except.error e)
      | Except.ok sd => (upd.1, Except.ok (set_random_seed sd))

/-- Configuration value held in Meta.config at the end of a bootstrap
call that raised no error before the seed lookup: the bundled defaults,
with the update applied when a config directory was supplied. -/
def finalConfig (env : ConfigEnv) (fs : FS) (config : Value)
    (config_dir : Option (List String)) (config_name : String) : Value :=
  match config_dir with
  | none => env.defaultConfig
  | some p => (Meta.update_config fs config p config_name env.defaultConfig).config


/-- Lookup distributes over list append, first list first. -/
theorem lookupList_append (k : String) (a b : List (String × Value)) :
    lookupList k (a ++ b) =
      match lookupList k a with
      | some v => some v
      | none => lookupList k b := by
  induction a with
  | nil => simp [lookupList]
  | cons p rest ih =>
    obtain ⟨k2, v⟩ := p
    by_cases h : k2 = k <;> simp [lookupList, h, ih]

/-- Filtering by a predicate on the key alone does not change the lookup
of a key every entry of which the predicate keeps. -/
theorem lookupList_filterKey (k : String) (x y : List (String × Value))
    (h : lookupList k x = none) :
    lookupList k (List.filter (fun q => (lookupList q.1 x).isNone) y) = lookupList k y := by
  induction y with
  | nil => simp
  | cons p tl ih =>
    obtain ⟨k2, v⟩ := p
    by_cases hk : k2 = k
    · subst hk
      simp [List.filter_cons, lookupList, h]
    · simp only [List.filter_cons]
      split
      · simp [lookupList, hk, ih]
      · simp [lookupList, hk, ih]

/-- Lookup in the merged-into base list: every base binding keeps its key,
and its value is merged with the override found for that key. -/
theorem lookupList_mergeInto (k : String) (x y : List (String × Value)) :
    lookupList k (mergeInto x y) =
      Option.map (fun v => mergeLook v (lookupList k y)) (lookupList k x) := by
  induction x with
  | nil => simp [mergeInto, lookupList]
  | cons p rest ih =>
    obtain ⟨k2, v⟩ := p
    by_cases h : k2 = k
    · subst h
      simp [mergeInto, lookupList]
    · simp [mergeInto, lookupList, h, ih]

/-- C1.  Deep-merge law: merging the override onto the base is key by key
(when both sides hold a mapping the merge recurses, captured by the first
conjunct together with mergeLook; when not both sides are mappings the
override value wins, second conjunct), and on the concrete example the
conflicting leaf key takes the override value while the non-conflicting
sibling key of the base survives (third conjunct). -/
theorem c1_deep_merge_law :
    (∀ (x y : List (String × Value)) (k : String),
      mlookup (merge (Value.map x) (Value.map y)) k =
        match lookupList k x, lookupList k y with
        | some v, some w => some (merge v w)
        | some v, none => some v
        | none, o => o)
    ∧ (∀ v w : Value, isMapV v = false ∨ isMapV w = false → merge v w = w)
    ∧ merge (Value.map [("a", Value.map [("x", Value.int 0), ("y", Value.int 2)])])
          (Value.map [("a", Value.map [("x", Value.int 1)])])
        = Value.map [("a", Value.map [("x", Value.int 1), ("y", Value.int 2)])] := by
  refine ⟨fun x y k => ?_, fun v w h => ?_, by simp [merge, mergeInto, mergeLook, lookupList]⟩
  · have hm : merge (Value.map x) (Value.map y) =
        Value.map (mergeInto x y ++ List.filter (fun q => (lookupList q.1 x).isNone) y) := by
      simp [merge]
    rw [hm]
    show lookupList k (mergeInto x y ++ List.filter (fun q => (lookupList q.1 x).isNone) y) = _
    rw [lookupList_append, lookupList_mergeInto]
    cases hx : lookupList k x with
    | none =>
      simp only [Option.map_none]
      rw [lookupList_filterKey k x y hx]
      cases hy : lookupList k y <;> simp
    | some v =>
      cases hy : lookupList k y <;> simp [mergeLook]
  · cases v <;> cases w <;> simp [merge, isMapV] at h ⊢

/-- C1 witness: the override-wins conjunct applied at a pair of scalars. -/
theorem c1_deep_merge_law_witness :
    merge (Value.int 5) Value.null = Value.null :=
  c1_deep_merge_law.2.1 (Value.int 5) Value.null (Or.inl rfl)

/-- Dropping the last component leaves a directory unchanged exactly at
the root, mirroring the root test of the search loop. -/
theorem dropLast_self_iff (d : List String) : d.dropLast = d ↔ d = [] := by
  constructor
  · intro h
    by_contra hne
    have h1 : d.dropLast.length = d.length - 1 := List.length_dropLast d
    have h2 : d.length ≠ 0 := fun h0 => hne (List.eq_nil_of_length_eq_zero h0)
    rw [h] at h1
    omega
  · rintro rfl
    rfl

/-- Characterization of the search loop by the directory it finds: when a
directory is found its file is parsed and merged (or its parse error is
raised); when none is found the configuration and error are untouched and
the defaults message appears exactly when the remaining budget of tries
covered the whole chain up to the root. -/
theorem configSearchLoop_char (fs : FS) (fn : String) :
    ∀ (fuel tries : Nat) (dir : List String) (cfg : Value),
      MAX_CONFIG_SEARCH_DEPTH - tries = fuel →
      configSearchLoop fs fn tries dir cfg =
        match findConfigDir fs fn tries dir with
        | some d =>
            match fs.readFile d fn with
            | Except.ok y => ⟨merge cfg y, none, [updatingFileMsg d fn]⟩
            | Except.error e => ⟨cfg, some e, []⟩
        | none =>
            ⟨cfg, none,
              if dir.length + 1 ≤ MAX_CONFIG_SEARCH_DEPTH - tries then [unableMsg] else []⟩ := by
  intro fuel
  induction fuel with
  | zero =>
    intro tries dir cfg h
    rw [configSearchLoop.eq_def, findConfigDir.eq_def]
    have hnt : ¬ tries < MAX_CONFIG_SEARCH_DEPTH := by omega
    simp [hnt, h]
  | succ fuel ih =>
    intro tries dir cfg h
    have ht : tries < MAX_CONFIG_SEARCH_DEPTH := by omega
    rw [configSearchLoop.eq_def, findConfigDir.eq_def]
    by_cases hf : fs.hasFile dir fn = true
    · simp [ht, hf]
    · by_cases hroot : dir.dropLast = dir
      · have hd : dir = [] := (dropLast_self_iff dir).mp hroot
        subst hd
        have hc : 0 + 1 ≤ MAX_CONFIG_SEARCH_DEPTH - tries := by omega
        simp [ht, hf, hroot, hc]
      · have hne : dir ≠ [] := fun h0 => hroot (by rw [h0]; rfl)
        have hL : dir.length ≠ 0 := fun h0 => hne (List.eq_nil_of_length_eq_zero h0)
        have hlen : dir.dropLast.length = dir.length - 1 := List.length_dropLast dir
        simp only [ht, if_true, hf, Bool.false_eq_true, if_false, hroot, if_neg]
        rw [ih (tries + 1) dir.dropLast cfg (by omega)]
        cases hfd : findConfigDir fs fn (tries + 1) dir.dropLast with
        | some d => rfl
        | none =>
          have hiff : (dir.dropLast.length + 1 ≤ MAX_CONFIG_SEARCH_DEPTH - (tries + 1)) ↔
              (dir.length + 1 ≤ MAX_CONFIG_SEARCH_DEPTH - tries) := by
            rw [hlen]
            omega
          simp only [hiff]

/-- The directory found by the search loop is the first directory holding
the named file among the first MAX_CONFIG_SEARCH_DEPTH - tries entries of
the chain from the starting directory up to the root. -/
theorem findConfigDir_eq_find (fs : FS) (fn : String) :
    ∀ (fuel tries : Nat) (dir : List String),
      MAX_CONFIG_SEARCH_DEPTH - tries = fuel →
      findConfigDir fs fn tries dir =
        ((dirChain dir).take fuel).find? (fun d => fs.hasFile d fn) := by
  intro fuel
  induction fuel with
  | zero =>
    intro tries dir h
    rw [findConfigDir.eq_def]
    have hnt : ¬ tries < MAX_CONFIG_SEARCH_DEPTH := by omega
    simp [hnt]
  | succ fuel ih =>
    intro tries dir h
    have ht : tries < MAX_CONFIG_SEARCH_DEPTH := by omega
    rw [findConfigDir.eq_def]
    by_cases hd : dir = []
    · subst hd
      rw [dirChain.eq_def]
      by_cases hf : fs.hasFile [] fn = true
      · simp [ht, hf, List.find?_cons_of_pos]
      · simp [ht, hf, List.find?_cons_of_neg]
    · rw [dirChain.eq_def]
      simp only [hd, if_false]
      by_cases hf : fs.hasFile dir fn = true
      · simp [ht, hf, List.find?_cons_of_pos]
      · have hroot : ¬ dir.dropLast = dir := fun hh => hd ((dropLast_self_iff dir).mp hh)
        simp only [ht, if_true, hf, Bool.false_eq_true, if_false, hroot, if_neg,
          List.take_succ_cons]
        rw [List.find?_cons_of_neg _ (by simp [hf])]
        exact ih (tries + 1) dir.dropLast (by omega)

/-- Trace of the search loop: the walk examines at most the remaining
budget of directories, the examined directories form an initial segment of
the upward chain, it stops at the found directory when there is one, and
otherwise it examines exactly the chain capped by the budget (so it
stopped at the root or when the budget ran out, whichever came first). -/
theorem searchVisited_spec (fs : FS) (fn : String) :
    ∀ (fuel tries : Nat) (dir : List String),
      MAX_CONFIG_SEARCH_DEPTH - tries = fuel →
      (searchVisited fs fn tries dir).length ≤ fuel ∧
      searchVisited fs fn tries dir =
        (dirChain dir).take (searchVisited fs fn tries dir).length ∧
      (match findConfigDir fs fn tries dir with
        | some d => (searchVisited fs fn tries dir).getLast? = some d
        | none => searchVisited fs fn tries dir = (dirChain dir).take fuel) := by
  intro fuel
  induction fuel with
  | zero =>
    intro tries dir h
    rw [searchVisited.eq_def, findConfigDir.eq_def]
    have hnt : ¬ tries < MAX_CONFIG_SEARCH_DEPTH := by
      omega
    simp [hnt]
  | succ fuel ih =>
    intro tries dir h
    have ht : tries < MAX_CONFIG_SEARCH_DEPTH := by omega
    rw [searchVisited.eq_def, findConfigDir.eq_def]
    by_cases hf : fs.hasFile dir fn = true
    · refine ⟨by simp [ht, hf], ?_, ?_⟩
      · rw [dirChain.eq_def]
        by_cases hd : dir = [] <;> simp [ht, hf, hd]
      · simp [ht, hf]
    · by_cases hroot : dir.dropLast = dir
      · have hd : dir = [] := (dropLast_self_iff dir).mp hroot
        subst hd
        refine ⟨by simp [ht, hf, hroot], ?_, ?_⟩
        · rw [dirChain.eq_def]
          simp [ht, hf, hroot]
        · rw [dirChain.eq_def]
          simp [ht, hf, hroot]
      · have hne : dir ≠ [] := fun h0 => hroot (by rw [h0]; rfl)
        obtain ⟨ih1, ih2, ih3⟩ := ih (tries + 1) dir.dropLast (by omega)
        simp only [ht, if_true, hf, Bool.false_eq_true, if_false, hroot, if_neg]
        refine ⟨by simp; omega, ?_, ?_⟩
        · rw [dirChain.eq_def]
          simp only [hne, if_false, List.length_cons, List.take_succ_cons]
          rw [← ih2]
        · cases hfd : findConfigDir fs fn (tries + 1) dir.dropLast with
          | some d =>
            rw [hfd] at ih3
            cases hv : searchVisited fs fn (tries + 1) dir.dropLast with
            | nil =>
              rw [hv] at ih3
              simp at ih3
            | cons a tl =>
              rw [hv] at ih3
              have ih4 : (a :: tl).getLast? = some d := ih3
              show (dir :: a :: tl).getLast? = some d
              rw [List.getLast?_cons_cons]
              exact ih4
          | none =>
            rw [hfd] at ih3
            rw [dirChain.eq_def]
            simp only [hne, if_false, List.take_succ_cons]
            rw [ih3]

/-- C2.  At most one discovered config file is merged per call: the loop
result merges exactly the file of the found directory (first conjunct),
the found directory is the first one holding the file along the upward
chain capped at MAX_CONFIG_SEARCH_DEPTH entries, so higher ancestors are
not reached (second conjunct), the override-dict merge and the file-search
merge are independent and compose in order within one call (third
conjunct), and on the concrete layout with the file only at /a, starting
from /a/b/c, exactly that file is merged (fourth conjunct). -/
theorem c2_at_most_one_file_merged :
    (∀ (fs : FS) (fn : String) (tries : Nat) (dir : List String) (cfg : Value),
      (configSearchLoop fs fn tries dir cfg).config =
        match findConfigDir fs fn tries dir with
        | some d =>
            match fs.readFile d fn with
            | Except.ok y => merge cfg y
            | Except.error _ => cfg
        | none => cfg)
    ∧ (∀ (fs : FS) (fn : String) (tries : Nat) (dir : List String),
      findConfigDir fs fn tries dir =
        ((dirChain dir).take (MAX_CONFIG_SEARCH_DEPTH - tries)).find?
          (fun d => fs.hasFile d fn))
    ∧ (∀ (fs : FS) (ov : Value) (p : List String) (fn : String) (cfg : Value),
      (Meta.update_config fs ov (some p) fn cfg).config =
        (configSearchLoop fs fn 0 p ((Meta.update_config fs ov none fn cfg).config)).config)
    ∧ (let exFS : FS := ⟨fun d f => decide (d = ["a"]) && decide (f = "emmental-config.yaml"),
        fun _ _ => Except.ok (Value.map [("k", Value.int 7)])⟩
      findConfigDir exFS "emmental-config.yaml" 0 ["a", "b", "c"] = some ["a"]
      ∧ ∀ cfg : Value,
          (Meta.update_config exFS (Value.map []) (some ["a", "b", "c"])
              "emmental-config.yaml" cfg).config =
            merge cfg (Value.map [("k", Value.int 7)])) := by
  refine ⟨fun fs fn tries dir cfg => ?_, ?_, fun fs ov p fn cfg => rfl, ?_⟩
  · rw [configSearchLoop_char fs fn (MAX_CONFIG_SEARCH_DEPTH - tries) tries dir cfg rfl]
    cases hfd : findConfigDir fs fn tries dir with
    | some d => cases hr : fs.readFile d fn <;> simp [hr]
    | none => rfl
  · exact fun fs fn tries dir => findConfigDir_eq_find fs fn (MAX_CONFIG_SEARCH_DEPTH - tries)
      tries dir rfl
  · intro exFS
    have hchain : dirChain ["a", "b", "c"] =
        [["a", "b", "c"], ["a", "b"], ["a"], ([] : List String)] := by
      simp [dirChain]
    have hfind : findConfigDir exFS "emmental-config.yaml" 0 ["a", "b", "c"] = some ["a"] := by
      rw [findConfigDir_eq_find exFS "emmental-config.yaml" 25 0 ["a", "b", "c"] rfl, hchain]
      decide
    refine ⟨hfind, fun cfg => ?_⟩
    show (configSearchLoop exFS "emmental-config.yaml" 0 ["a", "b", "c"] cfg).config = _
    rw [configSearchLoop_char exFS "emmental-config.yaml" 25 0 ["a", "b", "c"] cfg rfl, hfind]

/-- C5.  The upward search terminates: starting anywhere with any budget
already used, the loop examines at most the remaining budget of
directories and never more than MAX_CONFIG_SEARCH_DEPTH of them (first
conjunct), the examined directories walk straight up the ancestor chain
(second conjunct), and the walk stops at the found directory when the file
exists somewhere in reach, and otherwise runs the chain to the root or to
the budget, whichever is shorter (third conjunct) — for every filesystem,
including one where no matching file ever exists. -/
theorem c5_search_bounded :
    (∀ (fs : FS) (fn : String) (tries : Nat) (dir : List String),
      (searchVisited fs fn tries dir).length ≤ MAX_CONFIG_SEARCH_DEPTH - tries)
    ∧ (∀ (fs : FS) (fn : String) (tries : Nat) (dir : List String),
      searchVisited fs fn tries dir =
        (dirChain dir).take (searchVisited fs fn tries dir).length)
    ∧ (∀ (fs : FS) (fn : String) (tries : Nat) (dir : List String),
      match findConfigDir fs fn tries dir with
      | some d => (searchVisited fs fn tries dir).getLast? = some d
      | none => searchVisited fs fn tries dir =
          (dirChain dir).take (MAX_CONFIG_SEARCH_DEPTH - tries)) :=
  ⟨fun fs fn tries dir => (searchVisited_spec fs fn (MAX_CONFIG_SEARCH_DEPTH - tries)
      tries dir rfl).1,
   fun fs fn tries dir => (searchVisited_spec fs fn (MAX_CONFIG_SEARCH_DEPTH - tries)
      tries dir rfl).2.1,
   fun fs fn tries dir => (searchVisited_spec fs fn (MAX_CONFIG_SEARCH_DEPTH - tries)
      tries dir rfl).2.2⟩

/-- C6 counterexample: a starting directory 26 levels deep on a filesystem
holding no matching file at all.  The search ends without finding the file
and without error, and the configuration is untouched, but no message that
defaults are used is logged — the loop exhausts its try budget before
reaching the root, and only the root branch logs. -/
theorem c6_counterexample :
    (let fs0 : FS := ⟨fun _ _ => false, fun _ _ => Except.ok Value.null⟩
    findConfigDir fs0 "emmental-config.yaml" 0 (List.replicate 26 "d") = none
    ∧ Meta.update_config fs0 (Value.map []) (some (List.replicate 26 "d"))
        "emmental-config.yaml" (Value.map [("k", Value.int 1)]) =
      ⟨Value.map [("k", Value.int 1)], none, []⟩
    ∧ unableMsg ∉ (Meta.update_config fs0 (Value.map []) (some (List.replicate 26 "d"))
        "emmental-config.yaml" (Value.map [("k", Value.int 1)])).logs) := by
  intro fs0
  have hfind : findConfigDir fs0 "emmental-config.yaml" 0 (List.replicate 26 "d") = none := by
    rw [findConfigDir_eq_find fs0 "emmental-config.yaml" 25 0 (List.replicate 26 "d") rfl]
    simp [List.find?_eq_none]
  have hupd0 : Meta.update_config fs0 (Value.map []) (some (List.replicate 26 "d"))
        "emmental-config.yaml" (Value.map [("k", Value.int 1)]) =
      ⟨(configSearchLoop fs0 "emmental-config.yaml" 0 (List.replicate 26 "d")
          (Value.map [("k", Value.int 1)])).config,
       (configSearchLoop fs0 "emmental-config.yaml" 0 (List.replicate 26 "d")
          (Value.map [("k", Value.int 1)])).err,
       [] ++ (configSearchLoop fs0 "emmental-config.yaml" 0 (List.replicate 26 "d")
          (Value.map [("k", Value.int 1)])).logs⟩ := rfl
  have hupd : Meta.update_config fs0 (Value.map []) (some (List.replicate 26 "d"))
        "emmental-config.yaml" (Value.map [("k", Value.int 1)]) =
      ⟨Value.map [("k", Value.int 1)], none, []⟩ := by
    rw [hupd0, configSearchLoop_char fs0 "emmental-config.yaml" 25 0 (List.replicate 26 "d")
        (Value.map [("k", Value.int 1)]) rfl, hfind]
    simp
    decide
  exact ⟨hfind, hupd, by rw [hupd]; simp⟩

/-- C6 as amended: a search that finds no file is never an error — the
updater raises nothing and keeps the configuration that the override-dict
step produced — but the informational message that defaults are used is
emitted exactly when the walk reached the filesystem root within the try
budget; when the budget runs out first, nothing is logged. -/
theorem c6_no_file_not_an_error (fs : FS) (fn : String) (ov : Value) (p : List String)
    (cfg : Value) (hnf : findConfigDir fs fn 0 p = none) :
    (Meta.update_config fs ov (some p) fn cfg).err = none
    ∧ (Meta.update_config fs ov (some p) fn cfg).config =
        (Meta.update_config fs ov none fn cfg).config
    ∧ ((unableMsg ∈ (Meta.update_config fs ov (some p) fn cfg).logs) ↔
        p.length + 1 ≤ MAX_CONFIG_SEARCH_DEPTH) := by
  have hloop := configSearchLoop_char fs fn MAX_CONFIG_SEARCH_DEPTH 0 p
    ((Meta.update_config fs ov none fn cfg).config) rfl
  rw [hnf] at hloop
  have hupd : Meta.update_config fs ov (some p) fn cfg =
      ⟨(configSearchLoop fs fn 0 p ((Meta.update_config fs ov none fn cfg).config)).config,
       (configSearchLoop fs fn 0 p ((Meta.update_config fs ov none fn cfg).config)).err,
       (Meta.update_config fs ov none fn cfg).logs ++
         (configSearchLoop fs fn 0 p ((Meta.update_config fs ov none fn cfg).config)).logs⟩ :=
    rfl
  rw [hupd, hloop]
  refine ⟨rfl, rfl, ?_⟩
  have hdict : unableMsg ∉ (Meta.update_config fs ov none fn cfg).logs := by
    show unableMsg ∉ (if isEmptyMap ov = false then [updatingDictMsg] else [])
    by_cases hov : isEmptyMap ov = false <;> simp [hov, unableMsg, updatingDictMsg]
  by_cases hc : p.length + 1 ≤ MAX_CONFIG_SEARCH_DEPTH <;>
    simp [hc, List.mem_append, hdict]

/-- C6 witness: a one-level starting directory on an empty filesystem; no
error, configuration kept, and the defaults message is logged since the
root is reached within the budget. -/
theorem c6_no_file_not_an_error_witness :
    (Meta.update_config ⟨fun _ _ => false, fun _ _ => Except.ok Value.null⟩ (Value.map [])
        (some ["a"]) "emmental-config.yaml" Value.null).err = none
    ∧ (Meta.update_config ⟨fun _ _ => false, fun _ _ => Except.ok Value.null⟩ (Value.map [])
        (some ["a"]) "emmental-config.yaml" Value.null).config =
      (Meta.update_config ⟨fun _ _ => false, fun _ _ => Except.ok Value.null⟩ (Value.map [])
        none "emmental-config.yaml" Value.null).config
    ∧ ((unableMsg ∈ (Meta.update_config ⟨fun _ _ => false, fun _ _ => Except.ok Value.null⟩
        (Value.map []) (some ["a"]) "emmental-config.yaml" Value.null).logs) ↔
        (["a"] : List String).length + 1 ≤ MAX_CONFIG_SEARCH_DEPTH) :=
  c6_no_file_not_an_error ⟨fun _ _ => false, fun _ _ => Except.ok Value.null⟩
    "emmental-config.yaml" (Value.map []) ["a"] Value.null
    (by rw [findConfigDir_eq_find ⟨fun _ _ => false, fun _ _ => Except.ok Value.null⟩
          "emmental-config.yaml" 25 0 ["a"] rfl]
        simp [List.find?_eq_none])

/-- The joined path computed by init_logging is never the empty string, so
the recorded log path is truthy. -/
theorem pathJoin_ne_empty (a b : String) : pathJoin a b ≠ "" := by
  intro h
  have hlen := congrArg String.length h
  have h1 : ("/" : String).length = 1 := rfl
  simp [pathJoin, String.length_append, h1] at hlen

/-- C3.  Once the log path is set (truthy), a further call to the logging
initializer leaves the state untouched, performs no logger
reconfiguration, and emits only the single already-initialized message. -/
theorem c3_logging_init_idempotent (sys : Sys) (log_dir log_name fmt : String) (level : Nat)
    (s : Meta) (h : truthyStr s.log_path = true) :
    (init_logging sys log_dir log_name fmt level s).1 = s
    ∧ (init_logging sys log_dir log_name fmt level s).2.configured = false
    ∧ (init_logging sys log_dir log_name fmt level s).2.logs =
        [alreadyInitMsg (s.log_path.getD "None")] := by
  simp [init_logging, h]

/-- C3 witness: a state whose log path was set to a concrete directory. -/
theorem c3_logging_init_idempotent_witness :
    (init_logging ⟨"2020_01_01", "00_00_00", "/tmp"⟩ "/var/log" "emmental.log" defaultFormat INFO
        ⟨some "/tmp/2019_12_31/23_59_59", none⟩).1 = ⟨some "/tmp/2019_12_31/23_59_59", none⟩
    ∧ (init_logging ⟨"2020_01_01", "00_00_00", "/tmp"⟩ "/var/log" "emmental.log" defaultFormat INFO
        ⟨some "/tmp/2019_12_31/23_59_59", none⟩).2.configured = false
    ∧ (init_logging ⟨"2020_01_01", "00_00_00", "/tmp"⟩ "/var/log" "emmental.log" defaultFormat INFO
        ⟨some "/tmp/2019_12_31/23_59_59", none⟩).2.logs =
        [alreadyInitMsg ((some "/tmp/2019_12_31/23_59_59").getD "None")] :=
  c3_logging_init_idempotent ⟨"2020_01_01", "00_00_00", "/tmp"⟩ "/var/log" "emmental.log"
    defaultFormat INFO ⟨some "/tmp/2019_12_31/23_59_59", none⟩ (by decide)

/-- C4.  The config initializer unconditionally replaces the configuration
with the parsed bundled defaults, whatever was set before, and touches
nothing else. -/
theorem c4_init_config_replaces (env : ConfigEnv) (s : Meta) :
    (init_config env s).config = some env.defaultConfig
    ∧ (init_config env s).log_path = s.log_path :=
  ⟨rfl, rfl⟩

/-- Characterization of the bootstrap when no config directory is given:
the updater is skipped, so the outcome depends only on the logging inputs
and the bundled defaults. -/
theorem init_none_char (sys : Sys) (env : ConfigEnv) (fs : FS)
    (log_dir log_name fmt : String) (level : Nat) (c : Value) (cn : String) (s : Meta) :
    init sys env fs log_dir log_name fmt level c none cn s =
      (init_config env ((init_logging sys log_dir log_name fmt level s).1),
        match seedLookup env.defaultConfig with
        | Except.error e => Except.error e
        | Except.ok sd => Except.ok (set_random_seed sd)) := by
  show (match seedLookup ((some env.defaultConfig).getD Value.null) with
    | Except.error e =>
        (init_config env ((init_logging sys log_dir log_name fmt level s).1), Except.error e)
    | Except.ok sd =>
        (init_config env ((init_logging sys log_dir log_name fmt level s).1),
          Except.ok (set_random_seed sd))) = _
  simp only [Option.getD_some]
  cases seedLookup env.defaultConfig <;> rfl

/-- C9.  With no config directory supplied, the bootstrap never invokes
the updater: the final configuration is exactly the bundled defaults, and
the whole outcome is independent of the supplied override mapping and of
the filesystem. -/
theorem c9_override_discarded (sys : Sys) (env : ConfigEnv) (fs fs2 : FS)
    (log_dir log_name fmt : String) (level : Nat) (c c2 : Value) (cn : String) (s : Meta) :
    (init sys env fs log_dir log_name fmt level c none cn s).1.config = some env.defaultConfig
    ∧ init sys env fs log_dir log_name fmt level c none cn s =
        init sys env fs2 log_dir log_name fmt level c2 none cn s := by
  constructor
  · rw [init_none_char]
    rfl
  · rw [init_none_char, init_none_char]

/-- C10.  The state holder initializer Meta.init fills only unset fields:
a truthy configuration is kept as is (no reload of the defaults), a truthy
log path is kept as is, and when both fields are set the whole state is
untouched. -/
theorem c10_meta_init_only_fills_unset (sys : Sys) (env : ConfigEnv) (s : Meta) :
    (truthyOptValue s.config = true → (Meta.init sys env s).config = s.config)
    ∧ (truthyStr s.log_path = true → (Meta.init sys env s).log_path = s.log_path)
    ∧ (truthyStr s.log_path = true → truthyOptValue s.config = true →
        Meta.init sys env s = s) := by
  refine ⟨fun hc => ?_, fun hl => ?_, fun hl hc => ?_⟩
  · by_cases hl2 : truthyStr s.log_path = false
    · simp [Meta.init, init_logging, hl2, hc]
    · simp [Meta.init, init_logging, hl2, hc]
  · by_cases hc2 : truthyOptValue s.config = false
    · simp [Meta.init, init_logging, init_config, hl, hc2]
    · simp [Meta.init, init_logging, init_config, hl, hc2]
  · simp [Meta.init, init_logging, hl, hc]

/-- C10 witness: a fully initialized state is left untouched. -/
theorem c10_meta_init_only_fills_unset_witness :
    Meta.init ⟨"2020_01_01", "00_00_00", "/tmp"⟩ ⟨Value.map [("k", Value.int 1)]⟩
        ⟨some "/tmp/x", some (Value.map [("k", Value.int 2)])⟩ =
      ⟨some "/tmp/x", some (Value.map [("k", Value.int 2)])⟩ :=
  (c10_meta_init_only_fills_unset ⟨"2020_01_01", "00_00_00", "/tmp"⟩
      ⟨Value.map [("k", Value.int 1)]⟩ ⟨some "/tmp/x", some (Value.map [("k", Value.int 2)])⟩).2.2
    (by decide) (by decide)

/-- State held in Meta.config at the end of any bootstrap call, including
calls that raise: the bundled defaults, updated when a config directory
was supplied (the update itself stores its partial result even when it
raises). -/
theorem init_state_config (sys : Sys) (env : ConfigEnv) (fs : FS)
    (log_dir log_name fmt : String) (level : Nat) (c : Value) (cd : Option (List String))
    (cn : String) (s : Meta) :
    (init sys env fs log_dir log_name fmt level c cd cn s).1.config =
      some (finalConfig env fs c cd cn) := by
  cases cd with
  | none =>
    rw [init_none_char]
    rfl
  | some p =>
    simp only [init, init_config, Option.getD_some]
    split
    · rfl
    · split <;> rfl

/-- The bootstrap never changes the log path after its logging step. -/
theorem init_state_log_path (sys : Sys) (env : ConfigEnv) (fs : FS)
    (log_dir log_name fmt : String) (level : Nat) (c : Value) (cd : Option (List String))
    (cn : String) (s : Meta) :
    (init sys env fs log_dir log_name fmt level c cd cn s).1.log_path =
      ((init_logging sys log_dir log_name fmt level s).1).log_path := by
  cases cd with
  | none =>
    rw [init_none_char]
    rfl
  | some p =>
    simp only [init, init_config, Option.getD_some]
    split
    · rfl
    · split <;> rfl

/-- After init_logging the recorded log path is always truthy: either it
already was, or it has just been set to a non-empty joined path. -/
theorem init_logging_truthy (sys : Sys) (log_dir log_name fmt : String) (level : Nat)
    (s : Meta) :
    truthyStr ((init_logging sys log_dir log_name fmt level s).1).log_path = true := by
  by_cases h : truthyStr s.log_path = false
  · simp only [init_logging]
    rw [if_pos h]
    simp [truthyStr, bne_iff_ne]
    exact pathJoin_ne_empty _ _
  · simp only [init_logging]
    rw [if_neg h]
    simp at h
    exact h

/-- C7.  When the configuration a bootstrap call ends with lacks the
meta_config.seed path (meta_config absent, or seed absent under it) and
the update step itself raised nothing, the bootstrap fails with the
uncaught lookup error — a KeyError on meta_config or on seed — and the
failure happens after logging and configuration initialization completed:
the final state still holds the truthy log path and the loaded
configuration.  Nothing in the module catches the error: init returns it
to its caller. -/
theorem c7_missing_seed_is_fatal (sys : Sys) (env : ConfigEnv) (fs : FS)
    (log_dir log_name fmt : String) (level : Nat) (c : Value) (cd : Option (List String))
    (cn : String) (s : Meta)
    (hupd : ∀ p, cd = some p → (Meta.update_config fs c p cn env.defaultConfig).err = none)
    (hmiss : getItem (finalConfig env fs c cd cn) "meta_config" =
        Except.error ("KeyError: meta_config")
      ∨ ∃ m, getItem (finalConfig env fs c cd cn) "meta_config" = Except.ok m
          ∧ getItem m "seed" = Except.error ("KeyError: seed")) :
    (∃ e, (init sys env fs log_dir log_name fmt level c cd cn s).2 = Except.error e
        ∧ (e = "KeyError: meta_config" ∨ e = "KeyError: seed"))
    ∧ (init sys env fs log_dir log_name fmt level c cd cn s).1.config =
        some (finalConfig env fs c cd cn)
    ∧ truthyStr (init sys env fs log_dir log_name fmt level c cd cn s).1.log_path = true := by
  have hseed : ∃ e, seedLookup (finalConfig env fs c cd cn) = Except.error e
      ∧ (e = "KeyError: meta_config" ∨ e = "KeyError: seed") := by
    rcases hmiss with hm | ⟨m, hm, hs⟩
    · exact ⟨"KeyError: meta_config", by simp [seedLookup, hm], Or.inl rfl⟩
    · exact ⟨"KeyError: seed", by simp [seedLookup, hm, hs], Or.inr rfl⟩
  obtain ⟨e, he, hor⟩ := hseed
  refine ⟨⟨e, ?_, hor⟩, init_state_config sys env fs log_dir log_name fmt level c cd cn s, ?_⟩
  · cases cd with
    | none =>
      rw [init_none_char]
      have he2 : seedLookup env.defaultConfig = Except.error e := he
      simp [he2]
    | some p =>
      have hr : (Meta.update_config fs c p cn env.defaultConfig).err = none := hupd p rfl
      have he2 : seedLookup (Meta.update_config fs c p cn env.defaultConfig).config =
          Except.error e := he
      simp only [init, init_config, Option.getD_some]
      rw [hr]
      simp only []
      rw [he2]
  · rw [init_state_log_path]
    exact init_logging_truthy sys log_dir log_name fmt level s

/-- C7 witness: bundled defaults without a meta_config key and no config
directory; the bootstrap errors with the KeyError while the state keeps
its log path and loaded configuration. -/
theorem c7_missing_seed_is_fatal_witness :
    (∃ e, (init ⟨"2020_01_01", "00_00_00", "/tmp"⟩ ⟨Value.map []⟩
        ⟨fun _ _ => false, fun _ _ => Except.ok Value.null⟩ "/tmp" "emmental.log" defaultFormat
        INFO (Value.map []) none "emmental-config.yaml" ⟨none, none⟩).2 = Except.error e
        ∧ (e = "KeyError: meta_config" ∨ e = "KeyError: seed"))
    ∧ (init ⟨"2020_01_01", "00_00_00", "/tmp"⟩ ⟨Value.map []⟩
        ⟨fun _ _ => false, fun _ _ => Except.ok Value.null⟩ "/tmp" "emmental.log" defaultFormat
        INFO (Value.map []) none "emmental-config.yaml" ⟨none, none⟩).1.config =
        some (finalConfig ⟨Value.map []⟩ ⟨fun _ _ => false, fun _ _ => Except.ok Value.null⟩
          (Value.map []) none "emmental-config.yaml")
    ∧ truthyStr (init ⟨"2020_01_01", "00_00_00", "/tmp"⟩ ⟨Value.map []⟩
        ⟨fun _ _ => false, fun _ _ => Except.ok Value.null⟩ "/tmp" "emmental.log" defaultFormat
        INFO (Value.map []) none "emmental-config.yaml" ⟨none, none⟩).1.log_path = true :=
  c7_missing_seed_is_fatal ⟨"2020_01_01", "00_00_00", "/tmp"⟩ ⟨Value.map []⟩
    ⟨fun _ _ => false, fun _ _ => Except.ok Value.null⟩ "/tmp" "emmental.log" defaultFormat
    INFO (Value.map []) none "emmental-config.yaml" ⟨none, none⟩
    (fun p hp => by cases hp) (Or.inl rfl)

/-- A bootstrap call that returns a generator state read the seed from its
final configuration and installed exactly that seed. -/
theorem init_ok_seed (sys : Sys) (env : ConfigEnv) (fs : FS)
    (log_dir log_name fmt : String) (level : Nat) (c : Value) (cd : Option (List String))
    (cn : String) (s : Meta) (g : RNG)
    (hg : (init sys env fs log_dir log_name fmt level c cd cn s).2 = Except.ok g) :
    ∃ sd, seedLookup (finalConfig env fs c cd cn) = Except.ok sd ∧ g = set_random_seed sd := by
  cases cd with
  | none =>
    rw [init_none_char] at hg
    cases hs : seedLookup env.defaultConfig with
    | error e =>
      rw [hs] at hg
      simp at hg
    | ok sd =>
      rw [hs] at hg
      simp at hg
      exact ⟨sd, hs, hg.symm⟩
  | some p =>
    simp only [init, init_config, Option.getD_some] at hg
    cases hr : (Meta.update_config fs c p cn env.defaultConfig).err with
    | some e =>
      rw [hr] at hg
      simp at hg
    | none =>
      rw [hr] at hg
      simp only [] at hg
      cases hs : seedLookup (Meta.update_config fs c p cn env.defaultConfig).config with
      | error e =>
        rw [hs] at hg
        simp at hg
      | ok sd =>
        rw [hs] at hg
        simp at hg
        exact ⟨sd, hs, hg.symm⟩

/-- C8.  Seeding is deterministic: two bootstrap runs whose final
configurations carry the same seed value install equal generator states
and therefore produce identical subsequent pseudo-random sequences. -/
theorem c8_deterministic_seeding (sys1 sys2 : Sys) (env1 env2 : ConfigEnv) (fs1 fs2 : FS)
    (ld1 ld2 ln1 ln2 f1 f2 : String) (lv1 lv2 : Nat) (c1 c2 : Value)
    (cd1 cd2 : Option (List String)) (cn1 cn2 : String) (s1 s2 : Meta) (g1 g2 : RNG)
    (h1 : (init sys1 env1 fs1 ld1 ln1 f1 lv1 c1 cd1 cn1 s1).2 = Except.ok g1)
    (h2 : (init sys2 env2 fs2 ld2 ln2 f2 lv2 c2 cd2 cn2 s2).2 = Except.ok g2)
    (hsame : seedLookup (finalConfig env1 fs1 c1 cd1 cn1) =
        seedLookup (finalConfig env2 fs2 c2 cd2 cn2)) :
    g1 = g2 ∧ ∀ n, randomSequence g1 n = randomSequence g2 n := by
  obtain ⟨sd1, hs1, hg1⟩ := init_ok_seed sys1 env1 fs1 ld1 ln1 f1 lv1 c1 cd1 cn1 s1 g1 h1
  obtain ⟨sd2, hs2, hg2⟩ := init_ok_seed sys2 env2 fs2 ld2 ln2 f2 lv2 c2 cd2 cn2 s2 g2 h2
  rw [hs1, hs2] at hsame
  have hsd : sd1 = sd2 := by injection hsame
  subst hsd
  rw [hg1, hg2]
  exact ⟨rfl, fun n => rfl⟩

/-- C8 witness: two runs from different clocks, log directories and prior
states, both configured with seed 42, install the same generator state. -/
theorem c8_deterministic_seeding_witness :
    RNG.mk (Value.int 42) = RNG.mk (Value.int 42)
    ∧ ∀ n, randomSequence (RNG.mk (Value.int 42)) n = randomSequence (RNG.mk (Value.int 42)) n :=
  c8_deterministic_seeding ⟨"2020_01_01", "00_00_00", "/tmp"⟩ ⟨"2021_06_15", "12_30_00", "/tmp"⟩
    ⟨Value.map [("meta_config", Value.map [("seed", Value.int 42)])]⟩
    ⟨Value.map [("meta_config", Value.map [("seed", Value.int 42)])]⟩
    ⟨fun _ _ => false, fun _ _ => Except.ok Value.null⟩
    ⟨fun _ _ => true, fun _ _ => Except.error "boom"⟩
    "/tmp" "/var/log" "emmental.log" "other.log" defaultFormat defaultFormat INFO 30
    (Value.map []) (Value.map []) none none "emmental-config.yaml" "emmental-config.yaml"
    ⟨none, none⟩ ⟨some "/tmp/x", none⟩ (RNG.mk (Value.int 42)) (RNG.mk (Value.int 42))
    rfl rfl rfl
